import Mathlib

/-!
Verification development for the gym-buddy workout manager.

The definitions below are a shallow embedding of the repository sources:

* `src/src/lib/api-utils.ts` — field-level validation helpers;
* `src/src/lib/workout-validation.ts` — create/update payload validation;
* `src/src/app/api/workouts/[id]/favorite/route.ts` — the PATCH favorite
  handler and the GET/PUT/DELETE single-workout handlers, including the
  exercise reconciliation engine `handleExerciseUpdates`;
* `src/unnamed/part_006` — the GET list / POST create handlers.

The persistence layer (an ACID store accessed through a data mapper) is
modelled as an in-memory record of workout and exercise rows; a transaction
is an `Except`-valued state transformer that either commits a new store or
leaves the store untouched.  Unique row ids generated by the store are
modelled by a function producing a string strictly longer than every id
already present, which makes freshness provable.
-/

namespace GymBuddy

/-- Model of a JSON scalar value as the API layer receives it.  An
`Option JVal` encodes field presence: `none` stands for an absent field
(`undefined` in JavaScript).  Numbers are modelled as integers: every bound
in the source is integral and no claim depends on fractional values. -/
inductive JVal
  | jstr (s : String)
  | jnum (n : Int)
  | jnull
deriving DecidableEq

/-- JavaScript truthiness of a modelled scalar value. -/
def jsTruthy : JVal → Bool
  | .jstr s => !s.isEmpty
  | .jnum n => decide (n ≠ 0)
  | .jnull => false

/-- Whitespace trim at both ends of a character list. -/
def trimChars (cs : List Char) : List Char :=
  ((cs.dropWhile Char.isWhitespace).reverse.dropWhile Char.isWhitespace).reverse

/-- Accumulator pass of the digit-string parser. -/
def digitsToNatAux : List Char → Nat → Option Nat
  | [], acc => some acc
  | c :: rest, acc =>
      if c.isDigit then digitsToNatAux rest (acc * 10 + (c.toNat - 48)) else none

/-- Digit-string to number; `none` when the list is empty or holds a
non-digit. -/
def digitsToNat (cs : List Char) : Option Nat :=
  match cs with
  | [] => none
  | _ => digitsToNatAux cs 0

/-- Structural model of the integral string-to-number conversion shared by
the `Number` and `parseInt` models; `none` stands for `NaN`.  Fractional
and exotic numeric literals are not exercised by any claim. -/
def jsStrToInt (s : String) : Option Int :=
  match trimChars s.data with
  | '-' :: rest => (digitsToNat rest).map (fun n => -(n : Int))
  | '+' :: rest => (digitsToNat rest).map (fun n => (n : Int))
  | cs => (digitsToNat cs).map (fun n => (n : Int))

/-- Model of the JavaScript coercion `Number(value)`; `none` stands for
`NaN`.  `Number(null)` is `0`, `Number(undefined)` is `NaN`, a blank
string coerces to `0`; other strings go through the integral parser. -/
def jsNumber : Option JVal → Option Int
  | none => none
  | some (.jnum n) => some n
  | some .jnull => some 0
  | some (.jstr s) => if (trimChars s.data).isEmpty then some 0 else jsStrToInt s

/-- Model of `parseInt(value)`; `none` stands for `NaN`.  `parseInt(null)`
and `parseInt(undefined)` are `NaN`. -/
def jsParseInt : JVal → Option Int
  | .jnum n => some n
  | .jnull => none
  | .jstr s => jsStrToInt s

/-- Helper reading the string payload out of a scalar; it is only reached
behind a successful string validation, where the value is a `jstr`. -/
def getStr : Option JVal → String
  | some (.jstr s) => s
  | _ => ""

/-- Embeds `validateRequired` of api-utils.ts: `undefined`, `null` and the
empty string are rejected. -/
def validateRequired (value : Option JVal) (fieldName : String) : Option String :=
  if value = none ∨ value = some .jnull ∨ value = some (.jstr "") then
    some (fieldName ++ " is required")
  else none

/-- Upper-bound part of `validateString` of api-utils.ts. -/
def maxLengthCheck (s : String) (fieldName : String) (maxLength : Option Nat) : Option String :=
  match maxLength with
  | some m =>
      if s.length > m then
        some (fieldName ++ " must be no more than " ++ toString m ++ " characters long")
      else none
  | none => none

/-- Embeds `validateString` of api-utils.ts: a non-string value (including
`null` and an absent value) fails the `typeof` check, then the optional
length bounds are enforced in order. -/
def validateString (value : Option JVal) (fieldName : String)
    (minLength maxLength : Option Nat) : Option String :=
  match value with
  | some (.jstr s) =>
      match minLength with
      | some m =>
          if s.length < m then
            some (fieldName ++ " must be at least " ++ toString m ++ " characters long")
          else maxLengthCheck s fieldName maxLength
      | none => maxLengthCheck s fieldName maxLength
  | _ => some (fieldName ++ " must be a string")

/-- Upper-bound part of `validateNumber` of api-utils.ts. -/
def maxNumberCheck (num : Int) (fieldName : String) (maxV : Option Int) : Option String :=
  match maxV with
  | some m =>
      if num > m then some (fieldName ++ " must be no more than " ++ toString m)
      else none
  | none => none

/-- Embeds `validateNumber` of api-utils.ts: `Number(value)` must not be
`NaN`, then the optional bounds are enforced in order. -/
def validateNumber (value : Option JVal) (fieldName : String)
    (minV maxV : Option Int) : Option String :=
  match jsNumber value with
  | none => some (fieldName ++ " must be a valid number")
  | some num =>
      match minV with
      | some m =>
          if num < m then some (fieldName ++ " must be at least " ++ toString m)
          else maxNumberCheck num fieldName maxV
      | none => maxNumberCheck num fieldName maxV

/-- The category allow-list of `validateWorkoutCategory` in api-utils.ts. -/
def validCategories : List String := ["strength", "cardio", "flexibility", "sports", "other"]

/-- Characterwise lowercase, the model of `toLowerCase()`. -/
def toLowerStr (s : String) : String := String.mk (s.data.map Char.toLower)

/-- Embeds `validateWorkoutCategory` of api-utils.ts. -/
def validateWorkoutCategory (category : String) : Option String :=
  if validCategories.contains (toLowerStr category) then none
  else some ("Category must be one of: " ++ String.intercalate ", " validCategories)

/-- Split of a character list at every whitespace character, keeping empty
pieces, mirroring a split on a whitespace run regex. -/
def splitWhitespace : List Char → List (List Char)
  | [] => [[]]
  | c :: rest =>
      if c.isWhitespace then [] :: splitWhitespace rest
      else
        match splitWhitespace rest with
        | [] => [[c]]
        | w :: ws => (c :: w) :: ws

/-- Space-joined concatenation of word pieces. -/
def joinWordsWithSpace : List (List Char) → List Char
  | [] => []
  | [w] => w
  | w :: ws => w ++ ' ' :: joinWordsWithSpace ws

/-- Embeds `sanitizeString` of api-utils.ts: trims the ends and collapses
every internal whitespace run to a single space. -/
def sanitizeString (input : String) : String :=
  String.mk (joinWordsWithSpace
    ((splitWhitespace input.data).filter (fun w => !w.isEmpty)))

/-- Turns the optional error of a field validator into the list of error
messages it contributes, mirroring the `if (err) errors.push(err)` pattern. -/
def errList : Option String → List String
  | none => []
  | some e => [e]

/-- Extracts a success value from an `Except`, with a fallback for the
error case; the fallback is only reached on inputs that already failed the
error-collection pass. -/
def exceptGetD {ε α : Type} (e : Except ε α) (d : α) : α :=
  match e with
  | .ok a => a
  | .error _ => d

/-! Persisted data model, following the Prisma schema quoted in
API_DOCUMENTATION.md: a workout owns exercises through `workoutId`. -/

/-- An exercise row. -/
structure Exercise where
  id : String
  name : String
  reps : Option Int := none
  sets : Option Int := none
  duration : Option String := none
  notes : Option String := none
  order : Int := 0
  workoutId : String
deriving DecidableEq

/-- A workout row (completion rows are not needed by any claim). -/
structure Workout where
  id : String
  name : String
  description : Option String := none
  category : String
  isFavorite : Bool := false
deriving DecidableEq

/-- The store: all workout rows and all exercise rows. -/
structure DB where
  workouts : List Workout
  exercises : List Exercise
deriving DecidableEq

/-! Raw (pre-validation) payload shapes.  The `exercises` member is
restricted to an array-shaped value or an absent field; no claim concerns
a non-array `exercises` payload. -/

/-- One raw entry of a payload `exercises` array. -/
structure RawExercise where
  id : Option JVal := none
  name : Option JVal := none
  reps : Option JVal := none
  sets : Option JVal := none
  duration : Option JVal := none
  notes : Option JVal := none
  order : Option JVal := none
  _action : Option JVal := none
deriving DecidableEq

/-- A raw workout payload (used for both create and update requests). -/
structure RawWorkout where
  name : Option JVal := none
  description : Option JVal := none
  category : Option JVal := none
  exercises : Option (List RawExercise) := none
deriving DecidableEq

/-! Validated request shapes, following `src/types/api` as used by
workout-validation.ts.  In update shapes the outer `Option` is field
presence; an inner `none` is an explicit `null`. -/

/-- A validated create-mode exercise. -/
structure CreateExerciseData where
  name : String
  reps : Option Int := none
  sets : Option Int := none
  duration : Option String := none
  notes : Option String := none
  order : Int := 0
deriving DecidableEq

/-- A validated create-workout request. -/
structure CreateWorkoutRequest where
  name : String
  description : Option String := none
  category : String
  exercises : List CreateExerciseData := []
deriving DecidableEq

/-- A validated update-mode exercise directive. -/
structure UpdateExerciseData where
  id : Option String := none
  name : Option String := none
  reps : Option (Option Int) := none
  sets : Option (Option Int) := none
  duration : Option (Option String) := none
  notes : Option (Option String) := none
  order : Option Int := none
  _action : Option String := none
deriving DecidableEq

/-- A validated update-workout request. -/
structure UpdateWorkoutRequest where
  name : Option String := none
  description : Option (Option String) := none
  category : Option String := none
  exercises : Option (List UpdateExerciseData) := none
deriving DecidableEq

/-! Embedding of workout-validation.ts. -/

/-- The error-collection pass of `validateCreateExercise` (the local
`errors` array of the source), in source order. -/
def validateCreateExerciseErrors (data : RawExercise) : List String :=
  errList ((validateRequired data.name "name").orElse
    (fun _ => validateString data.name "name" (some 1) (some 100))) ++
  (match data.reps with
   | none => []
   | some .jnull => []
   | some v => errList (validateNumber (some v) "reps" (some 1) (some 1000))) ++
  (match data.sets with
   | none => []
   | some .jnull => []
   | some v => errList (validateNumber (some v) "sets" (some 1) (some 100))) ++
  (match data.duration with
   | none => []
   | some .jnull => []
   | some v => errList (validateString (some v) "duration" (some 1) (some 50))) ++
  (match data.notes with
   | none => []
   | some .jnull => []
   | some v => errList (validateString (some v) "notes" (some 0) (some 500))) ++
  errList ((validateRequired data.order "order").orElse
    (fun _ => validateNumber data.order "order" (some 0) (some 1000)))

/-- Embeds `validateCreateExercise`: field errors are collected in source
order; on success the sanitized, coerced exercise is produced.  The error is
the comma-joined message of `new ValidationError(errors.join(', '))`. -/
def validateCreateExercise (data : RawExercise) : Except String CreateExerciseData :=
  if (validateCreateExerciseErrors data).isEmpty then
    .ok {
      name := sanitizeString (getStr data.name),
      reps := match data.reps with
              | some v => if jsTruthy v then jsParseInt v else none
              | none => none,
      sets := match data.sets with
              | some v => if jsTruthy v then jsParseInt v else none
              | none => none,
      duration := match data.duration with
                  | some v => if jsTruthy v then some (sanitizeString (getStr (some v))) else none
                  | none => none,
      notes := match data.notes with
               | some v => if jsTruthy v then some (sanitizeString (getStr (some v))) else none
               | none => none,
      -- validation has already guaranteed a numeric order here; the
      -- fallback 0 stands for the unreachable NaN corner of parseInt
      order := match data.order with
               | some v => (jsParseInt v).getD 0
               | none => 0 }
  else .error (String.intercalate ", " (validateCreateExerciseErrors data))

/-- Error-collection pass over a create payload exercises array, mirroring
the `forEach` that pushes messages tagged with the 1-based position. -/
def collectCreateExerciseErrors : List RawExercise → Nat → List String
  | [], _ => []
  | e :: rest, i =>
      (match validateCreateExercise e with
       | .ok _ => []
       | .error msg => ["Exercise " ++ toString (i + 1) ++ ": " ++ msg]) ++
      collectCreateExerciseErrors rest (i + 1)

/-- Success-side mapping of a create payload exercises array, mirroring
`{...validateCreateExercise(exercise), order: exercise.order ?? index}`: the
validated exercise is rebuilt, except that `order` is the raw field when it
is not nullish, and the array index otherwise.  (That `?? index` default is
only reachable when the earlier error pass accepted every exercise.) -/
def createWorkoutExercises : List RawExercise → Nat → List CreateExerciseData
  | [], _ => []
  | e :: rest, i =>
      { exceptGetD (validateCreateExercise e) { name := "", order := 0 } with
        order := match e.order with
                 | none => Int.ofNat i
                 | some .jnull => Int.ofNat i
                 | some v => (jsParseInt v).getD 0 } ::
      createWorkoutExercises rest (i + 1)

/-- The error-collection pass of `validateCreateWorkout` (the local
`errors` array of the source), in source order. -/
def validateCreateWorkoutErrors (data : RawWorkout) : List String :=
  errList ((validateRequired data.name "name").orElse
    (fun _ => validateString data.name "name" (some 1) (some 100))) ++
  (match data.description with
   | none => []
   | some .jnull => []
   | some v => errList (validateString (some v) "description" (some 0) (some 500))) ++
  errList ((validateRequired data.category "category").orElse
    (fun _ => (validateString data.category "category" none none).orElse
      (fun _ => validateWorkoutCategory (getStr data.category)))) ++
  (match data.exercises with
   | none => ["exercises is required"]
   | some l =>
       if l.isEmpty then ["At least one exercise is required"]
       else collectCreateExerciseErrors l 0)

/-- Embeds `validateCreateWorkout` of workout-validation.ts. -/
def validateCreateWorkout (data : RawWorkout) : Except (List String) CreateWorkoutRequest :=
  if (validateCreateWorkoutErrors data).isEmpty then
    .ok {
      name := sanitizeString (getStr data.name),
      description := match data.description with
                     | some v => if jsTruthy v then some (sanitizeString (getStr (some v))) else none
                     | none => none,
      category := toLowerStr (getStr data.category),
      exercises := createWorkoutExercises (data.exercises.getD []) 0 }
  else .error (validateCreateWorkoutErrors data)

/-- The `_action` allow-list check of `validateUpdateExercise`:
`['update', 'create', 'delete'].includes(data._action)`. -/
def actionAllowed : JVal → Bool
  | .jstr s => ["update", "create", "delete"].contains s
  | _ => false

/-- The error-collection pass of `validateUpdateExercise` (the local
`errors` array of the source), in source order. -/
def validateUpdateExerciseErrors (data : RawExercise) : List String :=
  (match data.id with
   | none => []
   | some v => errList (validateString (some v) "id" none none)) ++
  (match data.name with
   | none => []
   | some v => errList (validateString (some v) "name" (some 1) (some 100))) ++
  (match data.reps with
   | none => []
   | some .jnull => []
   | some v => errList (validateNumber (some v) "reps" (some 1) (some 1000))) ++
  (match data.sets with
   | none => []
   | some .jnull => []
   | some v => errList (validateNumber (some v) "sets" (some 1) (some 100))) ++
  (match data.duration with
   | none => []
   | some .jnull => []
   | some v => errList (validateString (some v) "duration" (some 1) (some 50))) ++
  (match data.notes with
   | none => []
   | some .jnull => []
   | some v => errList (validateString (some v) "notes" (some 0) (some 500))) ++
  (match data.order with
   | none => []
   | some v => errList (validateNumber (some v) "order" (some 0) (some 1000))) ++
  (match data._action with
   | none => []
   | some v => if actionAllowed v then [] else ["_action must be one of: update, create, delete"])

/-- Embeds `validateUpdateExercise`: every field optional; `id` and `name`
must be strings when present (so an explicit `null` is rejected for them);
`reps`, `sets`, `duration` and `notes` accept `null` as a clear; `order`
is bounds-checked when present; `_action` must be in the allow-list. -/
def validateUpdateExercise (data : RawExercise) : Except String UpdateExerciseData :=
  if (validateUpdateExerciseErrors data).isEmpty then
    .ok {
      id := match data.id with
            | some v => some (getStr (some v))
            | none => none,
      name := match data.name with
              | some v => some (sanitizeString (getStr (some v)))
              | none => none,
      reps := match data.reps with
              | some v => some (if jsTruthy v then jsParseInt v else none)
              | none => none,
      sets := match data.sets with
              | some v => some (if jsTruthy v then jsParseInt v else none)
              | none => none,
      duration := match data.duration with
                  | some v => some (if jsTruthy v then some (sanitizeString (getStr (some v))) else none)
                  | none => none,
      notes := match data.notes with
               | some v => some (if jsTruthy v then some (sanitizeString (getStr (some v))) else none)
               | none => none,
      -- parseInt of an in-bounds numeric value; the NaN corner (an order
      -- of null passes validateNumber but parses to NaN) is conflated
      -- with an absent field, and no claim exercises it
      order := match data.order with
               | some v => jsParseInt v
               | none => none,
      _action := match data._action with
                 | some v => some (getStr (some v))
                 | none => none }
  else .error (String.intercalate ", " (validateUpdateExerciseErrors data))

/-- Error-collection pass over an update payload exercises array. -/
def collectUpdateExerciseErrors : List RawExercise → Nat → List String
  | [], _ => []
  | e :: rest, i =>
      (match validateUpdateExercise e with
       | .ok _ => []
       | .error msg => ["Exercise " ++ toString (i + 1) ++ ": " ++ msg]) ++
      collectUpdateExerciseErrors rest (i + 1)

/-- The error-collection pass of `validateUpdateWorkout` (the local
`errors` array of the source), in source order. -/
def validateUpdateWorkoutErrors (data : RawWorkout) : List String :=
  (match data.name with
   | none => []
   | some v => errList (validateString (some v) "name" (some 1) (some 100))) ++
  (match data.description with
   | none => []
   | some v => errList (validateString (some v) "description" (some 0) (some 500))) ++
  (match data.category with
   | none => []
   | some v => errList ((validateString (some v) "category" none none).orElse
       (fun _ => validateWorkoutCategory (getStr (some v))))) ++
  (match data.exercises with
   | none => []
   | some l => collectUpdateExerciseErrors l 0)

/-- Embeds `validateUpdateWorkout`: every field optional; the result object
contains a member only for the fields actually supplied; a truthiness test
turns a falsy supplied description into an explicit `null`. -/
def validateUpdateWorkout (data : RawWorkout) : Except (List String) UpdateWorkoutRequest :=
  if (validateUpdateWorkoutErrors data).isEmpty then
    .ok {
      name := data.name.map (fun v => sanitizeString (getStr (some v))),
      description := data.description.map
        (fun v => if jsTruthy v then some (sanitizeString (getStr (some v))) else none),
      category := data.category.map (fun v => toLowerStr (getStr (some v))),
      exercises := data.exercises.map
        (fun l => l.map (fun e => exceptGetD (validateUpdateExercise e) {})) }
  else .error (validateUpdateWorkoutErrors data)

/-! Embedding of the reconciliation engine `handleExerciseUpdates` and the
route handlers of `src/src/app/api/workouts/[id]/favorite/route.ts`. -/

/-- JavaScript truthiness of an optional string field: present and
non-empty. -/
def truthyId : Option String → Bool
  | none => false
  | some s => !s.isEmpty

/-- A fresh row id as produced by the store on insert: the concatenation of
every id already present plus one character, hence strictly longer than (so
different from) each of them. -/
def freshExerciseId (store : List Exercise) : String :=
  String.join (store.map (fun e => e.id)) ++ "x"

/-- Embeds `tx.exercise.delete({where: {id}})`: removes the row with the
given id, failing like Prisma (`P2025`) when no such row exists. -/
def exerciseDelete (store : List Exercise) (targetId : String) :
    Except String (List Exercise) :=
  if store.any (fun e => decide (e.id = targetId)) then
    .ok (store.filter (fun e => !(decide (e.id = targetId))))
  else .error ("P2025: record to delete not found: " ++ targetId)

/-- The per-field patch object built in the update branch of
`handleExerciseUpdates`: only the fields present in the directive are
written; `id` is never part of the patch. -/
def applyUpdateData (d : UpdateExerciseData) (e : Exercise) : Exercise :=
  { e with
    name := d.name.getD e.name,
    reps := match d.reps with
            | none => e.reps
            | some v => v,
    sets := match d.sets with
            | none => e.sets
            | some v => v,
    duration := match d.duration with
                | none => e.duration
                | some v => v,
    notes := match d.notes with
             | none => e.notes
             | some v => v,
    order := d.order.getD e.order }

/-- Whether the patch object of the update branch is non-empty
(`Object.keys(updateData).length > 0`). -/
def hasUpdateField (d : UpdateExerciseData) : Bool :=
  d.name.isSome || d.reps.isSome || d.sets.isSome ||
  d.duration.isSome || d.notes.isSome || d.order.isSome

/-- Embeds `tx.exercise.update({where: {id}, data})`: patches the row with
the given id, failing like Prisma (`P2025`) when no such row exists. -/
def exerciseUpdate (store : List Exercise) (targetId : String)
    (d : UpdateExerciseData) : Except String (List Exercise) :=
  if store.any (fun e => decide (e.id = targetId)) then
    .ok (store.map (fun e => if e.id = targetId then applyUpdateData d e else e))
  else .error ("P2025: record to update not found: " ++ targetId)

/-- The row built by the create branch of `handleExerciseUpdates`:
`name: exerciseData.name || 'Untitled Exercise'`,
`order: exerciseData.order || 0`, and the optional fields copied when the
directive supplies them. -/
def buildCreateExercise (workoutId : String) (newId : String)
    (d : UpdateExerciseData) : Exercise :=
  { id := newId,
    workoutId := workoutId,
    name := match d.name with
            | none => "Untitled Exercise"
            | some s => if s.isEmpty then "Untitled Exercise" else s,
    order := match d.order with
             | none => 0
             | some v => if v = 0 then 0 else v,
    reps := match d.reps with
            | none => none
            | some v => v,
    sets := match d.sets with
            | none => none
            | some v => v,
    duration := match d.duration with
                | none => none
                | some v => v,
    notes := match d.notes with
             | none => none
             | some v => v }

/-- One iteration of the directive loop of `handleExerciseUpdates`.  The
accumulator carries the exercise store of the transaction together with the
`updatedExerciseIds` set of resolved ids. -/
def applyDirective (workoutId : String) (existingExerciseIds : List String)
    (acc : List Exercise × List String) (exerciseData : UpdateExerciseData) :
    Except String (List Exercise × List String) :=
  let store := acc.1
  let updatedExerciseIds := acc.2
  if decide (exerciseData._action = some "delete") && truthyId exerciseData.id then
    (exerciseDelete store (exerciseData.id.getD "")).map
      (fun s => (s, updatedExerciseIds))
  else if truthyId exerciseData.id &&
      existingExerciseIds.any (fun s => decide (s = exerciseData.id.getD "")) then
    if hasUpdateField exerciseData then
      (exerciseUpdate store (exerciseData.id.getD "") exerciseData).map
        (fun s => (s, exerciseData.id.getD "" :: updatedExerciseIds))
    else .ok (store, exerciseData.id.getD "" :: updatedExerciseIds)
  else
    let newId := freshExerciseId store
    .ok (store ++ [buildCreateExercise workoutId newId exerciseData],
         newId :: updatedExerciseIds)

/-- The `exercisesToDelete` computation of `handleExerciseUpdates`:
pre-existing exercises that were not resolved and are not referenced by a
non-delete directive. -/
def exercisesToDeleteOf (exerciseUpdates : List UpdateExerciseData)
    (existingExercises : List Exercise) (updatedExerciseIds : List String) :
    List Exercise :=
  (existingExercises.filter
    (fun e => !(updatedExerciseIds.any (fun s => decide (s = e.id))))).filter
    (fun e => !(exerciseUpdates.any
      (fun u => decide (u.id = some e.id) && decide (u._action ≠ some "delete"))))

/-- The replacement-intent flag of `handleExerciseUpdates`:
`exerciseUpdates.some(e => !e.id || e._action === 'create')`. -/
def hasCompleteExerciseList (exerciseUpdates : List UpdateExerciseData) : Bool :=
  exerciseUpdates.any
    (fun e => !(truthyId e.id) || decide (e._action = some "create"))

/-- Embeds `handleExerciseUpdates`: dispatches every directive in caller
order against the transaction store, then removes the unresolved,
unreferenced pre-existing exercises when the directive list signals a
complete replacement. -/
def handleExerciseUpdates (workoutId : String)
    (exerciseUpdates : List UpdateExerciseData)
    (existingExercises : List Exercise) (store : List Exercise) :
    Except String (List Exercise) :=
  (exerciseUpdates.foldlM
      (applyDirective workoutId (existingExercises.map (fun e => e.id)))
      (store, [])).bind (fun res =>
    if hasCompleteExerciseList exerciseUpdates &&
        !(exercisesToDeleteOf exerciseUpdates existingExercises res.2).isEmpty then
      .ok (res.1.filter
        (fun e => !(((exercisesToDeleteOf exerciseUpdates existingExercises res.2).map
          (fun x => x.id)).any (fun s => decide (s = e.id)))))
    else .ok res.1)

/-! Orchestration of the PUT handler, the PATCH favorite handler, the GET
handlers and the POST handler; the read model shared by all of them. -/

/-- The exercises belonging to one workout, as the relation include loads
them. -/
def existingExercisesOf (db : DB) (workoutId : String) : List Exercise :=
  db.exercises.filter (fun e => decide (e.workoutId = workoutId))

/-- Comparison used to model the `orderBy: {order: 'asc'}` clause. -/
def orderLE (a b : Exercise) : Prop := a.order ≤ b.order

instance : DecidableRel orderLE :=
  fun a b => inferInstanceAs (Decidable (a.order ≤ b.order))

instance : IsTotal Exercise orderLE := ⟨fun a b => Int.le_total a.order b.order⟩

instance : IsTrans Exercise orderLE := ⟨fun _ _ _ h1 h2 => le_trans h1 h2⟩

/-- A workout representation as returned to callers: the workout row plus
its exercises sorted ascending by `order`.  (Completion aggregates are not
needed by any claim.) -/
structure WorkoutRead where
  workout : Workout
  exercises : List Exercise
deriving DecidableEq

/-- The reload query repeated by the GET, PUT, PATCH and POST handlers:
`findUnique` on the workout with `exercises: {orderBy: {order: 'asc'}}`. -/
def loadWorkoutRead (db : DB) (id : String) : Option WorkoutRead :=
  (db.workouts.find? (fun w => decide (w.id = id))).map (fun w =>
    { workout := w, exercises := List.insertionSort orderLE (existingExercisesOf db id) })

/-- The scalar-field patch object of the PUT handler (`workoutUpdateData`),
non-empty when at least one scalar field was supplied. -/
def workoutUpdateHasChanges (v : UpdateWorkoutRequest) : Bool :=
  v.name.isSome || v.description.isSome || v.category.isSome

/-- Applies the supplied scalar fields to a workout row. -/
def applyWorkoutUpdateData (v : UpdateWorkoutRequest) (w : Workout) : Workout :=
  { w with
    name := v.name.getD w.name,
    description := match v.description with
                   | none => w.description
                   | some d => d,
    category := v.category.getD w.category }

/-- Embeds `tx.workout.update({where: {id}, data})`, failing like Prisma
when no such workout row exists. -/
def workoutUpdate (db : DB) (id : String) (v : UpdateWorkoutRequest) :
    Except String DB :=
  if db.workouts.any (fun w => decide (w.id = id)) then
    .ok { db with workouts := (db.workouts.map
      (fun w => if w.id = id then applyWorkoutUpdateData v w else w)) }
  else .error ("P2025: record to update not found: " ++ id)

/-- The transaction body of the PUT handler: apply the scalar changes when
any were supplied, then reconcile the exercises when an exercises array was
supplied.  The pre-existing exercise snapshot is the one loaded before the
transaction, as in the source. -/
def runUpdateTransaction (db : DB) (id : String) (v : UpdateWorkoutRequest) :
    Except String DB :=
  (if workoutUpdateHasChanges v then workoutUpdate db id v else .ok db).bind (fun db1 =>
    match v.exercises with
    | none => .ok db1
    | some ds =>
        (handleExerciseUpdates id ds (existingExercisesOf db id) db1.exercises).bind
          (fun store => .ok { db1 with exercises := store }))

/-- Outcome of a PUT call. -/
inductive PutOutcome
  | ok (resp : WorkoutRead)
  | notFound
  | errorResp (msg : String)
deriving DecidableEq

/-- Whether a PUT outcome is a success response. -/
def PutOutcome.isOk : PutOutcome → Bool
  | .ok _ => true
  | _ => false

/-- Embeds the PUT handler: existence check, transaction, reload.  The
first component of the result is the persisted store after the call: a
failing transaction rolls back, leaving the pre-call store. -/
def putWorkout (db : DB) (id : String) (v : UpdateWorkoutRequest) :
    DB × PutOutcome :=
  match db.workouts.find? (fun w => decide (w.id = id)) with
  | none => (db, .notFound)
  | some _ =>
      match runUpdateTransaction db id v with
      | .error e => (db, .errorResp e)
      | .ok db1 =>
          match loadWorkoutRead db1 id with
          | none => (db1, .errorResp "Failed to update workout")
          | some resp => (db1, .ok resp)

/-- Embeds the PATCH favorite handler: existence check, then an update
flipping `isFavorite` against the fetched value, then the reload with
sorted exercises.  A `none` response is the 404 case. -/
def patchFavorite (db : DB) (id : String) : DB × Option WorkoutRead :=
  match db.workouts.find? (fun w => decide (w.id = id)) with
  | none => (db, none)
  | some existing =>
      let db1 : DB := { db with workouts := (db.workouts.map
        (fun w => if w.id = id then { w with isFavorite := !existing.isFavorite } else w)) }
      (db1, loadWorkoutRead db1 id)

/-- The favorite flag of a workout as a query would read it back. -/
def getIsFavorite (db : DB) (id : String) : Option Bool :=
  (db.workouts.find? (fun w => decide (w.id = id))).map (fun w => w.isFavorite)

/-- A fresh workout id on insert, by the same construction as
`freshExerciseId`. -/
def freshWorkoutId (ws : List Workout) : String :=
  String.join (ws.map (fun w => w.id)) ++ "w"

/-- Embeds `tx.exercise.createMany` of the POST handler: inserts one row
per validated exercise, each with a fresh id. -/
def createManyExercises (workoutId : String) (ds : List CreateExerciseData)
    (store : List Exercise) : List Exercise :=
  ds.foldl (fun st d =>
    st ++ [{ id := freshExerciseId st, workoutId := workoutId,
             name := d.name, reps := d.reps, sets := d.sets,
             duration := d.duration, notes := d.notes, order := d.order }]) store

/-- Embeds the POST handler transaction: insert the workout, insert its
exercises, reload with sorted exercises. -/
def postWorkout (db : DB) (v : CreateWorkoutRequest) : DB × Option WorkoutRead :=
  let wid := freshWorkoutId db.workouts
  let db1 : DB :=
    { workouts := db.workouts ++
        [{ id := wid, name := v.name, description := v.description,
           category := v.category, isFavorite := false }],
      exercises := createManyExercises wid v.exercises db.exercises }
  (db1, loadWorkoutRead db1 wid)

/-- Embeds the per-workout response assembly of the GET list handler; the
category/search/favorite filters and the pagination only select which
workout rows appear and do not touch the per-row exercise list, so they are
not modelled. -/
def listWorkoutsRead (db : DB) : List WorkoutRead :=
  db.workouts.map (fun w =>
    { workout := w, exercises := List.insertionSort orderLE (existingExercisesOf db w.id) })

/-! Auxiliary lemmas about fresh ids. -/

theorem length_foldl_append (l : List String) :
    ∀ a : String, (l.foldl (· ++ ·) a).length = a.length + (l.map String.length).sum := by
  induction l with
  | nil => intro a; simp
  | cons s rest ih =>
      intro a
      simp only [List.foldl_cons, List.map_cons, List.sum_cons]
      rw [ih (a ++ s), String.length_append]
      omega

theorem freshExerciseId_length (store : List Exercise) :
    (freshExerciseId store).length = ((store.map (fun e => e.id)).map String.length).sum + 1 := by
  show (String.join (store.map (fun e => e.id)) ++ "x").length = _
  rw [String.length_append]
  have hj : String.join (store.map (fun e => e.id)) =
      (store.map (fun e => e.id)).foldl (· ++ ·) "" := rfl
  rw [hj, length_foldl_append]
  show "".length + _ + "x".length = _ + 1
  have h0 : "".length = 0 := rfl
  have h1 : "x".length = 1 := rfl
  omega

theorem freshExerciseId_ne (store : List Exercise) :
    ∀ e ∈ store, e.id ≠ freshExerciseId store := by
  intro e he heq
  have hm : e.id.length ∈ (store.map (fun x => x.id)).map String.length :=
    List.mem_map.mpr ⟨e.id, List.mem_map.mpr ⟨e, he, rfl⟩, rfl⟩
  have h1 : e.id.length ≤ ((store.map (fun x => x.id)).map String.length).sum :=
    List.single_le_sum (fun x _ => Nat.zero_le x) _ hm
  have h2 : e.id.length = (freshExerciseId store).length := by rw [heq]
  rw [freshExerciseId_length store] at h2
  omega

/-! Branch equations for `applyDirective`. -/

theorem applyUpdateData_id (d : UpdateExerciseData) (e : Exercise) :
    (applyUpdateData d e).id = e.id := rfl

theorem applyDirective_delete_branch (wid : String) (ids : List String)
    (store : List Exercise) (res : List String) (d : UpdateExerciseData)
    (h1 : d._action = some "delete") (h2 : truthyId d.id = true) :
    applyDirective wid ids (store, res) d =
      (exerciseDelete store (d.id.getD "")).map (fun s => (s, res)) := by
  unfold applyDirective
  simp [h1, h2]

theorem applyDirective_update_branch (wid : String) (ids : List String)
    (store : List Exercise) (res : List String) (d : UpdateExerciseData)
    (h1 : ¬(d._action = some "delete" ∧ truthyId d.id = true))
    (h2 : truthyId d.id = true) (h3 : d.id.getD "" ∈ ids) :
    applyDirective wid ids (store, res) d =
      (if hasUpdateField d then
        (exerciseUpdate store (d.id.getD "") d).map (fun s => (s, d.id.getD "" :: res))
      else .ok (store, d.id.getD "" :: res)) := by
  have hA : d._action ≠ some "delete" := fun h => h1 ⟨h, h2⟩
  have hany : ids.any (fun s => decide (s = d.id.getD "")) = true :=
    List.any_eq_true.mpr ⟨_, h3, by simp⟩
  unfold applyDirective
  simp [hA, h2, hany]

theorem applyDirective_create_branch (wid : String) (ids : List String)
    (store : List Exercise) (res : List String) (d : UpdateExerciseData)
    (h1 : ¬(d._action = some "delete" ∧ truthyId d.id = true))
    (h2 : truthyId d.id = false ∨ d.id.getD "" ∉ ids) :
    applyDirective wid ids (store, res) d =
      .ok (store ++ [buildCreateExercise wid (freshExerciseId store) d],
           freshExerciseId store :: res) := by
  have hc1 : (decide (d._action = some "delete") && truthyId d.id) = false := by
    cases hB : truthyId d.id
    · simp
    · have hA : d._action ≠ some "delete" := fun h => h1 ⟨h, hB⟩
      simp [hA]
  have hc2 : (truthyId d.id && ids.any (fun s => decide (s = d.id.getD ""))) = false := by
    rcases h2 with h | h
    · simp [h]
    · have hf : ids.any (fun s => decide (s = d.id.getD "")) = false := by
        rw [List.any_eq_false]
        intro x hx
        simp only [decide_eq_true_eq]
        intro hxx
        exact h (hxx ▸ hx)
      simp [hf]
  unfold applyDirective
  simp only [hc1, hc2, Bool.false_eq_true, if_false]

/-! Invariants of the directive loop. -/

theorem truthyId_some (s : String) (h : s ≠ "") : truthyId (some s) = true := by
  have : s.isEmpty = false := by
    rw [Bool.eq_false_iff]
    intro hh
    exact h ((String.isEmpty_iff s).mp hh)
  simp [truthyId, this]

theorem truthyId_getD (d : UpdateExerciseData) (h : truthyId d.id = true) :
    d.id = some (d.id.getD "") := by
  cases hd : d.id with
  | none => rw [hd] at h; simp [truthyId] at h
  | some s => rfl

/-- A directive that references neither `tid` by id keeps a row with id
`tid` in the store and keeps `tid` out of the resolved set. -/
theorem applyDirective_preserves_unreferenced
    (wid : String) (ids : List String) (store : List Exercise) (res : List String)
    (d : UpdateExerciseData) (out : List Exercise × List String)
    (h : applyDirective wid ids (store, res) d = .ok out)
    (tid : String) (hni : d.id ≠ some tid)
    (hmem : ∃ e ∈ store, e.id = tid) (hres : tid ∉ res) :
    (∃ e ∈ out.1, e.id = tid) ∧ tid ∉ out.2 := by
  obtain ⟨e0, he0, hid0⟩ := hmem
  by_cases hdel : d._action = some "delete" ∧ truthyId d.id = true
  · rw [applyDirective_delete_branch wid ids store res d hdel.1 hdel.2] at h
    have hgd : d.id.getD "" ≠ tid := by
      intro hh
      exact hni (by rw [truthyId_getD d hdel.2, hh])
    unfold exerciseDelete at h
    split at h
    · simp only [Except.map] at h
      cases h
      refine ⟨⟨e0, ?_, hid0⟩, hres⟩
      refine List.mem_filter.mpr ⟨he0, ?_⟩
      simp only [Bool.not_eq_true', decide_eq_false_iff_not]
      rw [hid0]
      exact fun hh => hgd hh.symm
    · simp [Except.map] at h
  · by_cases hupd : truthyId d.id = true ∧ d.id.getD "" ∈ ids
    · rw [applyDirective_update_branch wid ids store res d hdel hupd.1 hupd.2] at h
      have hgd : d.id.getD "" ≠ tid := by
        intro hh
        exact hni (by rw [truthyId_getD d hupd.1, hh])
      split at h
      · unfold exerciseUpdate at h
        split at h
        · simp only [Except.map] at h
          cases h
          refine ⟨⟨(if e0.id = d.id.getD "" then applyUpdateData d e0 else e0), ?_, ?_⟩, ?_⟩
          · exact List.mem_map.mpr ⟨e0, he0, rfl⟩
          · by_cases hc : e0.id = d.id.getD ""
            · rw [if_pos hc, applyUpdateData_id, hid0]
            · rw [if_neg hc, hid0]
          · intro hmem2
            rcases List.mem_cons.mp hmem2 with h2 | h2
            · exact hgd h2.symm
            · exact hres h2
        · simp [Except.map] at h
      · cases h
        refine ⟨⟨e0, he0, hid0⟩, ?_⟩
        intro hmem2
        rcases List.mem_cons.mp hmem2 with h2 | h2
        · exact hgd h2.symm
        · exact hres h2
    · have hor : truthyId d.id = false ∨ d.id.getD "" ∉ ids := by
        by_cases ht : truthyId d.id = true
        · right; intro hin; exact hupd ⟨ht, hin⟩
        · left; exact Bool.eq_false_iff.mpr ht
      rw [applyDirective_create_branch wid ids store res d hdel hor] at h
      cases h
      refine ⟨⟨e0, List.mem_append.mpr (.inl he0), hid0⟩, ?_⟩
      intro hmem2
      rcases List.mem_cons.mp hmem2 with h2 | h2
      · exact freshExerciseId_ne store e0 he0 (hid0.symm ▸ h2.symm).symm
      · exact hres h2

/-- The whole directive loop keeps a row with id `tid` and keeps `tid`
unresolved, provided no directive references `tid`. -/
theorem foldlM_preserves_unreferenced (wid : String) (ids : List String) :
    ∀ (ds : List UpdateExerciseData) (store : List Exercise) (res : List String)
      (out : List Exercise × List String),
      List.foldlM (applyDirective wid ids) (store, res) ds = .ok out →
      ∀ tid : String,
        (∀ u ∈ ds, u.id ≠ some tid) →
        (∃ e ∈ store, e.id = tid) →
        tid ∉ res →
        (∃ e ∈ out.1, e.id = tid) ∧ tid ∉ out.2 := by
  intro ds
  induction ds with
  | nil =>
      intro store res out h tid h1 h2 h3
      rw [List.foldlM_nil] at h
      cases h
      exact ⟨h2, h3⟩
  | cons d rest ih =>
      intro store res out h tid h1 h2 h3
      rw [List.foldlM_cons] at h
      cases hstep : applyDirective wid ids (store, res) d with
      | error e => rw [hstep] at h; exact Except.noConfusion h
      | ok acc1 =>
          rw [hstep] at h
          have hh : List.foldlM (applyDirective wid ids) acc1 rest = .ok out := h
          have hprev := applyDirective_preserves_unreferenced wid ids store res d acc1
            hstep tid (h1 d (List.mem_cons_self d rest)) h2 h3
          exact ih acc1.1 acc1.2 out hh tid
            (fun u hu => h1 u (List.mem_cons_of_mem d hu)) hprev.1 hprev.2

/-- A pure-patch directive (id-bearing, action-free or update-action, id
among the existing ids) leaves the sequence of row ids unchanged. -/
theorem applyDirective_patch_preserves_ids
    (wid : String) (ids : List String) (store : List Exercise) (res : List String)
    (d : UpdateExerciseData) (out : List Exercise × List String)
    (h : applyDirective wid ids (store, res) d = .ok out)
    (hid : d.id.isSome = true) (hne : d.id.getD "" ≠ "")
    (hin : d.id.getD "" ∈ ids)
    (hact : d._action = none ∨ d._action = some "update") :
    out.1.map (fun e => e.id) = store.map (fun e => e.id) := by
  have htr : truthyId d.id = true := by
    cases hd : d.id with
    | none => rw [hd] at hid; simp at hid
    | some s =>
        rw [hd] at hne
        simp only [Option.getD] at hne
        exact truthyId_some s hne
  have hnd : ¬(d._action = some "delete" ∧ truthyId d.id = true) := by
    rintro ⟨ha, _⟩
    rcases hact with hh | hh <;> rw [hh] at ha <;> simp at ha
  rw [applyDirective_update_branch wid ids store res d hnd htr hin] at h
  split at h
  · unfold exerciseUpdate at h
    split at h
    · simp only [Except.map] at h
      cases h
      show List.map (fun e => e.id)
        (store.map (fun e => if e.id = d.id.getD "" then applyUpdateData d e else e)) =
        store.map (fun e => e.id)
      rw [List.map_map]
      apply List.map_congr_left
      intro e _
      simp only [Function.comp]
      by_cases hc : e.id = d.id.getD ""
      · rw [if_pos hc, applyUpdateData_id]
      · rw [if_neg hc]
    · simp [Except.map] at h
  · cases h
    rfl

/-- The whole directive loop of a pure partial patch leaves the sequence
of row ids unchanged. -/
theorem foldlM_patch_preserves_ids (wid : String) (ids : List String) :
    ∀ (ds : List UpdateExerciseData) (store : List Exercise) (res : List String)
      (out : List Exercise × List String),
      (∀ d ∈ ds, d.id.isSome = true ∧ d.id.getD "" ≠ "" ∧ d.id.getD "" ∈ ids ∧
        (d._action = none ∨ d._action = some "update")) →
      List.foldlM (applyDirective wid ids) (store, res) ds = .ok out →
      out.1.map (fun e => e.id) = store.map (fun e => e.id) := by
  intro ds
  induction ds with
  | nil =>
      intro store res out _ h
      rw [List.foldlM_nil] at h
      cases h
      rfl
  | cons d rest ih =>
      intro store res out hall h
      rw [List.foldlM_cons] at h
      cases hstep : applyDirective wid ids (store, res) d with
      | error e => rw [hstep] at h; exact Except.noConfusion h
      | ok acc1 =>
          rw [hstep] at h
          obtain ⟨ha, hb, hc, hd⟩ := hall d (List.mem_cons_self d rest)
          have h1 := applyDirective_patch_preserves_ids wid ids store res d acc1
            hstep ha hb hc hd
          have h2 := ih acc1.1 acc1.2 out
            (fun u hu => hall u (List.mem_cons_of_mem d hu)) h
          rw [h2, h1]

/-! Decomposition of the orchestration layers. -/

/-- Successful reconciliation decomposes into a successful directive loop
followed by the conditional replacement deletion. -/
theorem handleExerciseUpdates_ok (wid : String) (ds : List UpdateExerciseData)
    (existing : List Exercise) (store0 store1 : List Exercise)
    (h : handleExerciseUpdates wid ds existing store0 = .ok store1) :
    ∃ acc : List Exercise × List String,
      List.foldlM (applyDirective wid (existing.map (fun e => e.id))) (store0, []) ds = .ok acc ∧
      store1 = (if hasCompleteExerciseList ds && !(exercisesToDeleteOf ds existing acc.2).isEmpty
        then acc.1.filter (fun e =>
          !((exercisesToDeleteOf ds existing acc.2).map (fun x => x.id)).any
            (fun s => decide (s = e.id)))
        else acc.1) := by
  unfold handleExerciseUpdates at h
  cases hf : List.foldlM (applyDirective wid (existing.map (fun e => e.id))) (store0, []) ds with
  | error e =>
      rw [hf] at h
      exact Except.noConfusion h
  | ok acc =>
      rw [hf] at h
      refine ⟨acc, rfl, ?_⟩
      have h2 : (if hasCompleteExerciseList ds && !(exercisesToDeleteOf ds existing acc.2).isEmpty
          then (Except.ok (acc.1.filter (fun e =>
            !((exercisesToDeleteOf ds existing acc.2).map (fun x => x.id)).any
              (fun s => decide (s = e.id)))) : Except String (List Exercise))
          else Except.ok acc.1) = .ok store1 := h
      by_cases hc : (hasCompleteExerciseList ds && !(exercisesToDeleteOf ds existing acc.2).isEmpty) = true
      · rw [if_pos hc] at h2
        rw [if_pos hc]
        cases h2
        rfl
      · rw [if_neg hc] at h2
        rw [if_neg hc]
        cases h2
        rfl

/-- The scalar workout update never touches the exercise table. -/
theorem workoutUpdate_exercises (db : DB) (id : String) (v : UpdateWorkoutRequest)
    (db1 : DB) (h : workoutUpdate db id v = .ok db1) : db1.exercises = db.exercises := by
  unfold workoutUpdate at h
  split at h
  · cases h; rfl
  · exact Except.noConfusion h

/-- A successful update transaction with an exercises array decomposes into
a successful reconciliation run against the pre-transaction snapshot. -/
theorem runUpdateTransaction_ok (db : DB) (id : String) (v : UpdateWorkoutRequest)
    (ds : List UpdateExerciseData) (db1 : DB)
    (hex : v.exercises = some ds)
    (h : runUpdateTransaction db id v = .ok db1) :
    ∃ store1,
      handleExerciseUpdates id ds (existingExercisesOf db id) db.exercises = .ok store1 ∧
      db1.exercises = store1 := by
  unfold runUpdateTransaction at h
  cases hch : workoutUpdateHasChanges v with
  | false =>
      rw [hch] at h
      simp only [Bool.false_eq_true, if_false] at h
      have h3 : (match v.exercises with
          | none => (Except.ok db : Except String DB)
          | some ds =>
              (handleExerciseUpdates id ds (existingExercisesOf db id) db.exercises).bind
                (fun store => .ok { db with exercises := store })) = .ok db1 := h
      rw [hex] at h3
      have h4 : (handleExerciseUpdates id ds (existingExercisesOf db id) db.exercises).bind
          (fun store => (Except.ok { db with exercises := store } : Except String DB)) =
          .ok db1 := h3
      cases hh : handleExerciseUpdates id ds (existingExercisesOf db id) db.exercises with
      | error e =>
          rw [hh] at h4
          exact Except.noConfusion h4
      | ok store1 =>
          rw [hh] at h4
          refine ⟨store1, rfl, ?_⟩
          have h2 : (Except.ok { db with exercises := store1 } : Except String DB) =
              .ok db1 := h4
          cases h2
          rfl
  | true =>
      rw [hch] at h
      simp only [if_true] at h
      cases hu : workoutUpdate db id v with
      | error e =>
          rw [hu] at h
          exact Except.noConfusion h
      | ok dbu =>
          rw [hu] at h
          have hex2 := workoutUpdate_exercises db id v dbu hu
          have h3 : (match v.exercises with
              | none => (Except.ok dbu : Except String DB)
              | some ds =>
                  (handleExerciseUpdates id ds (existingExercisesOf db id) dbu.exercises).bind
                    (fun store => .ok { dbu with exercises := store })) = .ok db1 := h
          rw [hex] at h3
          rw [hex2] at h3
          have h4 : (handleExerciseUpdates id ds (existingExercisesOf db id) db.exercises).bind
              (fun store => (Except.ok { dbu with exercises := store } : Except String DB)) =
              .ok db1 := h3
          cases hh : handleExerciseUpdates id ds (existingExercisesOf db id) db.exercises with
          | error e =>
              rw [hh] at h4
              exact Except.noConfusion h4
          | ok store1 =>
              rw [hh] at h4
              refine ⟨store1, rfl, ?_⟩
              have h2 : (Except.ok { dbu with exercises := store1 } : Except String DB) =
                  .ok db1 := h4
              cases h2
              rfl

/-- A successful PUT call commits exactly the state produced by its
transaction. -/
theorem putWorkout_ok_tx (db : DB) (id : String) (v : UpdateWorkoutRequest)
    (h : ((putWorkout db id v).2).isOk = true) :
    runUpdateTransaction db id v = .ok (putWorkout db id v).1 := by
  unfold putWorkout at h ⊢
  cases hf : db.workouts.find? (fun w => decide (w.id = id)) with
  | none =>
      rw [hf] at h
      simp [PutOutcome.isOk] at h
  | some w =>
      rw [hf] at h
      cases ht : runUpdateTransaction db id v with
      | error e =>
          rw [ht] at h
          simp [PutOutcome.isOk] at h
      | ok db1 =>
          show (Except.ok db1 : Except String DB) = Except.ok (match loadWorkoutRead db1 id with
            | none => (db1, PutOutcome.errorResp "Failed to update workout")
            | some resp => (db1, PutOutcome.ok resp)).1
          cases hl : loadWorkoutRead db1 id with
          | none => rfl
          | some resp => rfl

/-! Claim theorems. -/

/-- Replacement-intent deletion, shared form: a successful PUT whose
directive list signals replacement removes every unreferenced pre-existing
exercise of the workout from the persisted store. -/
theorem putWorkout_replacement_absent (db : DB) (wid : String)
    (v : UpdateWorkoutRequest) (ds : List UpdateExerciseData) (e0 : Exercise)
    (hex : v.exercises = some ds)
    (hintent : ∃ d ∈ ds, d.id = none ∨ d._action = some "create")
    (he0 : e0 ∈ db.exercises) (hw0 : e0.workoutId = wid)
    (hunref : ∀ u ∈ ds, u.id ≠ some e0.id)
    (hput : ((putWorkout db wid v).2).isOk = true) :
    e0.id ∉ (putWorkout db wid v).1.exercises.map (fun e => e.id) := by
  have htx := putWorkout_ok_tx db wid v hput
  obtain ⟨store1, hh, hdb1⟩ := runUpdateTransaction_ok db wid v ds _ hex htx
  obtain ⟨acc, hfold, hstore⟩ :=
    handleExerciseUpdates_ok wid ds (existingExercisesOf db wid) db.exercises store1 hh
  have hinv := foldlM_preserves_unreferenced wid
    ((existingExercisesOf db wid).map (fun e => e.id)) ds db.exercises [] acc hfold
    e0.id hunref ⟨e0, he0, rfl⟩ (by simp)
  have hcl : hasCompleteExerciseList ds = true := by
    obtain ⟨d, hd, hcase⟩ := hintent
    refine List.any_eq_true.mpr ⟨d, hd, ?_⟩
    rcases hcase with hc | hc
    · simp [truthyId, hc]
    · simp [hc]
  have he0x : e0 ∈ existingExercisesOf db wid :=
    List.mem_filter.mpr ⟨he0, by simp [hw0]⟩
  have hmemdel : e0 ∈ exercisesToDeleteOf ds (existingExercisesOf db wid) acc.2 := by
    unfold exercisesToDeleteOf
    refine List.mem_filter.mpr ⟨List.mem_filter.mpr ⟨he0x, ?_⟩, ?_⟩
    · simp only [Bool.not_eq_true']
      rw [List.any_eq_false]
      intro x hx
      simp only [decide_eq_true_eq]
      intro hxx
      exact hinv.2 (hxx ▸ hx)
    · simp only [Bool.not_eq_true']
      rw [List.any_eq_false]
      intro u hu
      simp only [Bool.and_eq_true, decide_eq_true_eq]
      rintro ⟨h1, _⟩
      exact hunref u hu h1
  have hne2 : (exercisesToDeleteOf ds (existingExercisesOf db wid) acc.2).isEmpty = false := by
    rw [Bool.eq_false_iff]
    intro hempty
    rw [List.isEmpty_iff] at hempty
    rw [hempty] at hmemdel
    exact List.not_mem_nil e0 hmemdel
  rw [hcl, hne2] at hstore
  simp only [Bool.not_false, Bool.and_self, if_true] at hstore
  rw [hdb1, hstore]
  intro hmem
  rw [List.mem_map] at hmem
  obtain ⟨e, hef, heid⟩ := hmem
  rw [List.mem_filter] at hef
  have h2 := hef.2
  simp only [Bool.not_eq_true'] at h2
  rw [List.any_eq_false] at h2
  refine h2 e0.id (List.mem_map.mpr ⟨e0, hmemdel, rfl⟩) ?_
  simp [heid]

/-- C1: Replace invariant — for every valid update payload whose exercises
array contains at least one directive with no id or with `_action` create,
applied to an existing workout (the call succeeding), every pre-existing
exercise of the workout whose id is not referenced by any directive of the
payload is absent from the persisted exercise set after the call. -/
theorem replace_deletes_unreferenced (db : DB) (wid : String)
    (v : UpdateWorkoutRequest) (ds : List UpdateExerciseData) (e0 : Exercise)
    (hex : v.exercises = some ds)
    (hintent : ∃ d ∈ ds, d.id = none ∨ d._action = some "create")
    (he0 : e0 ∈ db.exercises) (hw0 : e0.workoutId = wid)
    (hunref : ∀ u ∈ ds, u.id ≠ some e0.id)
    (hput : ((putWorkout db wid v).2).isOk = true) :
    e0.id ∉ (putWorkout db wid v).1.exercises.map (fun e => e.id) :=
  putWorkout_replacement_absent db wid v ds e0 hex hintent he0 hw0 hunref hput

/-! Concrete fixtures used by witnesses and counterexamples. -/

/-- A persisted exercise row of the fixture workout. -/
def exSquats : Exercise := { id := "e1", workoutId := "w1", name := "Squats", order := 0 }

/-- A second persisted exercise row of the fixture workout. -/
def exLunges : Exercise := { id := "e2", workoutId := "w1", name := "Lunges", order := 1 }

/-- The fixture workout row. -/
def wLegDay : Workout := { id := "w1", name := "Leg Day", category := "strength" }

/-- The fixture store: one workout with two exercises. -/
def dbLegDay : DB := { workouts := [wLegDay], exercises := [exSquats, exLunges] }

/-- An update payload with a single id-less directive (replacement intent). -/
def payReplace : UpdateWorkoutRequest :=
  { exercises := some [{ name := some "New", order := some 2 }] }

theorem replace_deletes_unreferenced_witness :
    exSquats.id ∉ (putWorkout dbLegDay "w1" payReplace).1.exercises.map (fun e => e.id) :=
  replace_deletes_unreferenced dbLegDay "w1" payReplace
    [{ name := some "New", order := some 2 }] exSquats rfl
    (by decide) (by decide) (by decide) (by decide) (by decide)

/-- A single delete directive carrying the id of an existing exercise. -/
def dirDeleteSquats : UpdateExerciseData := { id := some "e1", _action := some "delete" }

/-- An update payload consisting only of id-bearing directives, one of
which carries the delete action. -/
def payDeleteSquats : UpdateWorkoutRequest := { exercises := some [dirDeleteSquats] }

/-- C2 counterexample: a valid update payload in which every directive
carries an id matching an existing exercise (and none lacks an id) can
still delete an existing exercise, through its `_action` delete directive:
the claim as stated is false. -/
theorem partial_patch_counterexample :
    payDeleteSquats.exercises = some [dirDeleteSquats] ∧
    dirDeleteSquats.id = some exSquats.id ∧
    exSquats ∈ dbLegDay.exercises ∧
    ((putWorkout dbLegDay "w1" payDeleteSquats).2).isOk = true ∧
    exSquats.id ∉ (putWorkout dbLegDay "w1" payDeleteSquats).1.exercises.map (fun e => e.id) :=
  ⟨rfl, rfl, by decide, by decide, by decide⟩

/-- C2 (amended): for every valid update payload in which every directive
carries a nonempty id matching an existing exercise of the workout and
carries no `_action` or `_action` update (a pure partial patch), the call
leaves the persisted exercise row ids of the whole store unchanged: in
particular no existing exercise is deleted, regardless of how many
directives are supplied. -/
theorem partial_patch_preserves (db : DB) (wid : String)
    (v : UpdateWorkoutRequest) (ds : List UpdateExerciseData)
    (hex : v.exercises = some ds)
    (hall : ∀ d ∈ ds, d.id.isSome = true ∧ d.id.getD "" ≠ "" ∧
      d.id.getD "" ∈ (existingExercisesOf db wid).map (fun e => e.id) ∧
      (d._action = none ∨ d._action = some "update"))
    (hput : ((putWorkout db wid v).2).isOk = true) :
    (putWorkout db wid v).1.exercises.map (fun e => e.id) =
      db.exercises.map (fun e => e.id) := by
  have htx := putWorkout_ok_tx db wid v hput
  obtain ⟨store1, hh, hdb1⟩ := runUpdateTransaction_ok db wid v ds _ hex htx
  obtain ⟨acc, hfold, hstore⟩ :=
    handleExerciseUpdates_ok wid ds (existingExercisesOf db wid) db.exercises store1 hh
  have hids := foldlM_patch_preserves_ids wid
    ((existingExercisesOf db wid).map (fun e => e.id)) ds db.exercises [] acc hall hfold
  have hcl : hasCompleteExerciseList ds = false := by
    unfold hasCompleteExerciseList
    rw [List.any_eq_false]
    intro d hd
    obtain ⟨h1, h2, _, h4⟩ := hall d hd
    have htr : truthyId d.id = true := by
      cases hdid : d.id with
      | none => rw [hdid] at h1; simp at h1
      | some s =>
          rw [hdid] at h2
          simp only [Option.getD] at h2
          exact truthyId_some s h2
    have hnc : decide (d._action = some "create") = false := by
      rcases h4 with hh4 | hh4 <;> simp [hh4]
    simp [htr, hnc]
  rw [hcl] at hstore
  simp only [Bool.false_and, Bool.false_eq_true, if_false] at hstore
  rw [hdb1, hstore, hids]

theorem partial_patch_preserves_witness :
    (putWorkout dbLegDay "w1"
      { exercises := some [{ id := some "e1", name := some "Renamed" }] }).1.exercises.map
        (fun e => e.id) = dbLegDay.exercises.map (fun e => e.id) :=
  partial_patch_preserves dbLegDay "w1"
    { exercises := some [{ id := some "e1", name := some "Renamed" }] }
    [{ id := some "e1", name := some "Renamed" }] rfl (by decide) (by decide)

/-- C3: atomicity of the update transaction — when any operation dispatched
inside the transaction fails (the `Except` error), the PUT call persists
nothing: the store is returned in its pre-call state (scalar workout fields
included) and the caller receives the single error of the first failure. -/
theorem update_transaction_atomic (db : DB) (id : String)
    (v : UpdateWorkoutRequest) (w : Workout) (e : String)
    (hw : db.workouts.find? (fun x => decide (x.id = id)) = some w)
    (htx : runUpdateTransaction db id v = .error e) :
    putWorkout db id v = (db, .errorResp e) := by
  unfold putWorkout
  rw [hw, htx]

/-- A payload whose second directive is a delete aimed at an id matching no
exercise row; the first directive and the scalar rename must also be rolled
back. -/
def payGhostDelete : UpdateWorkoutRequest :=
  { name := some "Renamed",
    exercises := some [{ name := some "A", order := some 5 },
                       { id := some "ghost", _action := some "delete" }] }

theorem update_transaction_atomic_witness :
    putWorkout dbLegDay "w1" payGhostDelete =
      (dbLegDay, .errorResp "P2025: record to delete not found: ghost") :=
  update_transaction_atomic dbLegDay "w1" payGhostDelete wLegDay
    "P2025: record to delete not found: ghost" rfl rfl

/-- A directive carrying the delete action but no id. -/
def dirDeleteNoId : UpdateExerciseData := { _action := some "delete" }

/-- An update payload holding only the delete-without-id directive. -/
def payDeleteNoId : UpdateWorkoutRequest := { exercises := some [dirDeleteNoId] }

/-- C4 counterexample: a directive with `_action` delete and no id is not a
no-op — on the fixture it creates a defaulted Untitled Exercise row and, by
signalling replacement intent, causes both pre-existing exercises to be
deleted: the claim that it causes no creation and no deletion is false. -/
theorem delete_without_id_counterexample :
    ((putWorkout dbLegDay "w1" payDeleteNoId).2).isOk = true ∧
    (putWorkout dbLegDay "w1" payDeleteNoId).1.exercises.map (fun e => e.name) =
      ["Untitled Exercise"] ∧
    exSquats.id ∉ (putWorkout dbLegDay "w1" payDeleteNoId).1.exercises.map (fun e => e.id) ∧
    exLunges.id ∉ (putWorkout dbLegDay "w1" payDeleteNoId).1.exercises.map (fun e => e.id) :=
  ⟨by decide, by decide, by decide, by decide⟩

/-- C4 (amended): a directive with `_action` delete and no id deletes
nothing by itself but is dispatched to the create branch — it appends one
new exercise row with a fresh id (name and order defaulted when absent)
and records that id as resolved — and its missing id makes the directive
list count as a complete replacement. -/
theorem delete_without_id_dispatches_create (wid : String) (ids : List String)
    (store : List Exercise) (res : List String) (d : UpdateExerciseData)
    (ds : List UpdateExerciseData)
    (_hact : d._action = some "delete") (hid : d.id = none) (hmem : d ∈ ds) :
    applyDirective wid ids (store, res) d =
      .ok (store ++ [buildCreateExercise wid (freshExerciseId store) d],
           freshExerciseId store :: res) ∧
    (∀ e ∈ store, e.id ≠ freshExerciseId store) ∧
    (d.name = none → (buildCreateExercise wid (freshExerciseId store) d).name =
      "Untitled Exercise") ∧
    (d.order = none → (buildCreateExercise wid (freshExerciseId store) d).order = 0) ∧
    hasCompleteExerciseList ds = true := by
  have hnd : ¬(d._action = some "delete" ∧ truthyId d.id = true) := by
    rintro ⟨_, ht⟩
    rw [hid] at ht
    simp [truthyId] at ht
  have hor : truthyId d.id = false ∨ d.id.getD "" ∉ ids := by
    left
    rw [hid]
    rfl
  refine ⟨applyDirective_create_branch wid ids store res d hnd hor,
    freshExerciseId_ne store, ?_, ?_, ?_⟩
  · intro hn
    simp [buildCreateExercise, hn]
  · intro hn
    simp [buildCreateExercise, hn]
  · refine List.any_eq_true.mpr ⟨d, hmem, ?_⟩
    rw [hid]
    simp [truthyId]

theorem delete_without_id_dispatches_create_witness :
    applyDirective "w1" ["e1", "e2"] ([exSquats, exLunges], []) dirDeleteNoId =
      .ok ([exSquats, exLunges] ++
             [buildCreateExercise "w1" (freshExerciseId [exSquats, exLunges]) dirDeleteNoId],
           [freshExerciseId [exSquats, exLunges]]) :=
  (delete_without_id_dispatches_create "w1" ["e1", "e2"] [exSquats, exLunges] []
    dirDeleteNoId [dirDeleteNoId] rfl rfl (by decide)).1

/-- The raw update entry whose name is a single space: it passes the
length-one lower bound and sanitizes to the empty string. -/
def rawSpaceName : RawExercise := { name := some (.jstr " "), order := some (.jnum 1) }

/-- The validated directive produced from `rawSpaceName`. -/
def dirEmptyName : UpdateExerciseData := { name := some "", order := some 1 }

/-- C5 counterexample: a valid directive that supplies a name (the raw
string of one space, sanitized to the empty string) is created with the
placeholder name Untitled Exercise instead of the supplied name: the
created name is not the directive name although the name is not missing. -/
theorem create_name_default_counterexample :
    validateUpdateExercise rawSpaceName = .ok dirEmptyName ∧
    dirEmptyName.name = some "" ∧
    applyDirective "w1" [] (([] : List Exercise), ([] : List String)) dirEmptyName =
      .ok ([{ id := "x", workoutId := "w1", name := "Untitled Exercise", order := 1 }],
           ["x"]) :=
  ⟨rfl, rfl, rfl⟩

/-- C5 (amended): a directive dispatched to the create branch (no truthy
id, or id matching no existing exercise, and not a delete with an id)
appends exactly one new exercise owned by the workout, with a fresh id
recorded as resolved, name equal to the directive name when that is
present and nonempty and Untitled Exercise otherwise, and order equal to
the directive order or zero when missing. -/
theorem create_dispatch_defaults (wid : String) (ids : List String)
    (store : List Exercise) (res : List String) (d : UpdateExerciseData)
    (hnotdel : ¬(d._action = some "delete" ∧ truthyId d.id = true))
    (hcreate : truthyId d.id = false ∨ d.id.getD "" ∉ ids) :
    applyDirective wid ids (store, res) d =
      .ok (store ++ [buildCreateExercise wid (freshExerciseId store) d],
           freshExerciseId store :: res) ∧
    (buildCreateExercise wid (freshExerciseId store) d).workoutId = wid ∧
    (buildCreateExercise wid (freshExerciseId store) d).id ∉
      store.map (fun e => e.id) ∧
    (buildCreateExercise wid (freshExerciseId store) d).name =
      (match d.name with
       | none => "Untitled Exercise"
       | some s => if s = "" then "Untitled Exercise" else s) ∧
    (buildCreateExercise wid (freshExerciseId store) d).order = d.order.getD 0 := by
  refine ⟨applyDirective_create_branch wid ids store res d hnotdel hcreate, rfl, ?_, ?_, ?_⟩
  · intro hmem
    rw [List.mem_map] at hmem
    obtain ⟨e, he, heid⟩ := hmem
    exact freshExerciseId_ne store e he heid
  · show (match d.name with
      | none => "Untitled Exercise"
      | some s => if s.isEmpty then "Untitled Exercise" else s) = _
    cases d.name with
    | none => rfl
    | some s =>
        by_cases hs : s = ""
        · subst hs
          rfl
        · have hse : s.isEmpty = false := by
            rw [Bool.eq_false_iff]
            intro hh
            exact hs ((String.isEmpty_iff s).mp hh)
          simp [hse, hs]
  · show (match d.order with
      | none => 0
      | some v => if v = 0 then 0 else v) = d.order.getD 0
    cases d.order with
    | none => rfl
    | some v =>
        by_cases hv : v = 0 <;> simp [hv]

theorem create_dispatch_defaults_witness :
    applyDirective "w1" [] (([] : List Exercise), ([] : List String)) dirEmptyName =
      .ok ([buildCreateExercise "w1" (freshExerciseId []) dirEmptyName],
           [freshExerciseId []]) :=
  (create_dispatch_defaults "w1" [] [] [] dirEmptyName (by decide) (by decide)).1

/-- C6 counterexample: supplying `null` for the description of an update
payload is not accepted as a clear — it is rejected by the string type
check with a validation error. -/
theorem description_null_rejected_counterexample :
    validateUpdateWorkout { description := some .jnull } =
      .error ["description must be a string"] := rfl

/-- C6 (amended): the validated partial-update object contains exactly the
workout fields actually supplied; supplying the empty string for the
description clears it (emitted as an explicit `null`), leaving it absent
keeps it untouched, and supplying `null` is rejected with a validation
error rather than accepted as a clear. -/
theorem update_fields_exactly_supplied (p : RawWorkout) :
    (∀ r, validateUpdateWorkout p = .ok r →
      (r.name.isSome = p.name.isSome ∧
       r.description.isSome = p.description.isSome ∧
       r.category.isSome = p.category.isSome ∧
       r.exercises.isSome = p.exercises.isSome) ∧
      (p.description = some (.jstr "") → r.description = some none) ∧
      (p.description = none → r.description = none)) ∧
    (p.description = some .jnull → ∀ r, validateUpdateWorkout p ≠ .ok r) := by
  constructor
  · intro r hr
    unfold validateUpdateWorkout at hr
    split at hr
    · cases hr
      refine ⟨⟨?_, ?_, ?_, ?_⟩, ?_, ?_⟩
      · show (p.name.map _).isSome = p.name.isSome
        cases p.name <;> rfl
      · show (p.description.map _).isSome = p.description.isSome
        cases p.description <;> rfl
      · show (p.category.map _).isSome = p.category.isSome
        cases p.category <;> rfl
      · show (p.exercises.map _).isSome = p.exercises.isSome
        cases p.exercises <;> rfl
      · intro hd
        show p.description.map _ = some none
        rw [hd]
        rfl
      · intro hd
        show p.description.map _ = none
        rw [hd]
        rfl
    · exact Except.noConfusion hr
  · intro hdesc r hr
    unfold validateUpdateWorkout at hr
    split at hr
    · next hempty =>
        have hmem : "description must be a string" ∈ validateUpdateWorkoutErrors p := by
          unfold validateUpdateWorkoutErrors
          rw [hdesc]
          refine List.mem_append.mpr (.inl (List.mem_append.mpr
            (.inl (List.mem_append.mpr (.inr ?_)))))
          show "description must be a string" ∈
            errList (validateString (some .jnull) "description" (some 0) (some 500))
          exact List.mem_singleton.mpr rfl
        rw [List.isEmpty_iff] at hempty
        rw [hempty] at hmem
        exact List.not_mem_nil _ hmem
    · exact Except.noConfusion hr

theorem update_fields_exactly_supplied_witness :
    validateUpdateWorkout { description := some (.jstr "") } =
      .ok { description := some none } ∧
    ({ description := some none } : UpdateWorkoutRequest).description = some none ∧
    validateUpdateWorkout { description := some .jnull } ≠
      .ok ({} : UpdateWorkoutRequest) :=
  ⟨rfl,
   ((update_fields_exactly_supplied { description := some (.jstr "") }).1
     { description := some none } rfl).2.1 rfl,
   (update_fields_exactly_supplied { description := some .jnull }).2 rfl {}⟩

/-- An exercise entry whose `order` is missing causes `validateCreateExercise`
to fail with the required-field error. -/
theorem createExercise_order_missing (e : RawExercise) (h : e.order = none) :
    ∃ m, validateCreateExercise e = .error m := by
  have hmem : "order is required" ∈ validateCreateExerciseErrors e := by
    unfold validateCreateExerciseErrors
    rw [h]
    refine List.mem_append.mpr (.inr ?_)
    show "order is required" ∈ errList ((validateRequired none "order").orElse
      (fun _ => validateNumber none "order" (some 0) (some 1000)))
    exact List.mem_singleton.mpr rfl
  have hne : (validateCreateExerciseErrors e).isEmpty = false := by
    rw [Bool.eq_false_iff]
    intro hh
    rw [List.isEmpty_iff] at hh
    rw [hh] at hmem
    exact List.not_mem_nil _ hmem
  unfold validateCreateExercise
  simp only [hne, Bool.false_eq_true, if_false]
  exact ⟨_, rfl⟩

/-- The per-exercise error pass reports at least one message when one of
the entries fails its validation. -/
theorem collectCreateExerciseErrors_ne_nil :
    ∀ (l : List RawExercise) (i : Nat) (e : RawExercise), e ∈ l →
      (∃ m, validateCreateExercise e = .error m) →
      collectCreateExerciseErrors l i ≠ [] := by
  intro l
  induction l with
  | nil =>
      intro i e he _
      exact absurd he (List.not_mem_nil e)
  | cons x rest ih =>
      intro i e he hm
      rcases List.mem_cons.mp he with rfl | hmem
      · obtain ⟨m, hm2⟩ := hm
        show ((match validateCreateExercise e with
               | .ok _ => []
               | .error msg => ["Exercise " ++ toString (i + 1) ++ ": " ++ msg]) ++
              collectCreateExerciseErrors rest (i + 1)) ≠ []
        rw [hm2]
        simp
      · have hr := ih (i + 1) e hmem hm
        intro heq
        rw [show collectCreateExerciseErrors (x :: rest) i =
          ((match validateCreateExercise x with
            | .ok _ => []
            | .error msg => ["Exercise " ++ toString (i + 1) ++ ": " ++ msg]) ++
           collectCreateExerciseErrors rest (i + 1)) from rfl] at heq
        rw [List.append_eq_nil] at heq
        exact hr heq.2

/-- C7 (amended): a workout-creation payload in which some exercise entry
omits `order` always fails validation (the required-field check fires
before the array-index defaulting, which is therefore unreachable); no
validated output is produced. -/
theorem create_order_required (p : RawWorkout) (l : List RawExercise)
    (e : RawExercise) (hl : p.exercises = some l) (he : e ∈ l)
    (hord : e.order = none) :
    ∀ r, validateCreateWorkout p ≠ .ok r := by
  intro r hr
  unfold validateCreateWorkout at hr
  split at hr
  · next hempty =>
      have hC : (match p.exercises with
          | none => ["exercises is required"]
          | some l =>
              if l.isEmpty then ["At least one exercise is required"]
              else collectCreateExerciseErrors l 0) ≠ [] := by
        rw [hl]
        by_cases hle : l.isEmpty = true
        · rw [List.isEmpty_iff] at hle
          subst hle
          exact absurd he (List.not_mem_nil e)
        · have hle2 : l.isEmpty = false := Bool.eq_false_iff.mpr hle
          simp only [hle2, Bool.false_eq_true, if_false]
          exact collectCreateExerciseErrors_ne_nil l 0 e he
            (createExercise_order_missing e hord)
      rw [List.isEmpty_iff] at hempty
      unfold validateCreateWorkoutErrors at hempty
      rw [List.append_eq_nil] at hempty
      exact hC hempty.2
  · exact Except.noConfusion hr

/-- The creation payload of the C7 counterexample: valid in every respect
except that its only exercise omits `order`. -/
def rawCreateNoOrder : RawWorkout :=
  { name := some (.jstr "Leg Day"), category := some (.jstr "strength"),
    exercises := some [{ name := some (.jstr "Squats") }] }

/-- C7 counterexample: the payload with an omitted exercise `order` is not
accepted with the order defaulted to the array index — validation fails
with the required-field error. -/
theorem create_order_omitted_counterexample :
    validateCreateWorkout rawCreateNoOrder =
      .error ["Exercise 1: order is required"] := rfl

theorem create_order_required_witness :
    validateCreateWorkout rawCreateNoOrder ≠
      .ok { name := "Leg Day", category := "strength", exercises := [] } :=
  create_order_required rawCreateNoOrder [{ name := some (.jstr "Squats") }]
    { name := some (.jstr "Squats") } rfl (List.mem_singleton.mpr rfl) rfl
    { name := "Leg Day", category := "strength", exercises := [] }

/-! Read-model sortedness. -/

theorem loadWorkoutRead_sorted (db : DB) (i : String) (r : WorkoutRead)
    (h : loadWorkoutRead db i = some r) : List.Sorted orderLE r.exercises := by
  unfold loadWorkoutRead at h
  rw [Option.map_eq_some'] at h
  obtain ⟨w, _, hr⟩ := h
  rw [← hr]
  exact List.sorted_insertionSort orderLE _

theorem putWorkout_resp_sorted (db : DB) (i : String) (v : UpdateWorkoutRequest)
    (r : WorkoutRead) (h : (putWorkout db i v).2 = .ok r) :
    List.Sorted orderLE r.exercises := by
  unfold putWorkout at h
  cases hf : db.workouts.find? (fun w => decide (w.id = i)) with
  | none =>
      rw [hf] at h
      exact absurd h (by simp)
  | some w =>
      rw [hf] at h
      cases ht : runUpdateTransaction db i v with
      | error e =>
          rw [ht] at h
          exact absurd h (by simp)
      | ok db1 =>
          rw [ht] at h
          have h2 : (match loadWorkoutRead db1 i with
              | none => (db1, PutOutcome.errorResp "Failed to update workout")
              | some resp => (db1, PutOutcome.ok resp)).2 = .ok r := h
          cases hl : loadWorkoutRead db1 i with
          | none =>
              rw [hl] at h2
              exact absurd h2 (by simp)
          | some resp =>
              rw [hl] at h2
              have h3 : PutOutcome.ok resp = PutOutcome.ok r := h2
              cases h3
              exact loadWorkoutRead_sorted db1 i r hl

theorem patchFavorite_resp_sorted (db : DB) (i : String) (r : WorkoutRead)
    (h : (patchFavorite db i).2 = some r) : List.Sorted orderLE r.exercises := by
  unfold patchFavorite at h
  cases hf : db.workouts.find? (fun w => decide (w.id = i)) with
  | none =>
      rw [hf] at h
      exact Option.noConfusion h
  | some w =>
      rw [hf] at h
      exact loadWorkoutRead_sorted _ i r h

theorem postWorkout_resp_sorted (db : DB) (c : CreateWorkoutRequest)
    (r : WorkoutRead) (h : (postWorkout db c).2 = some r) :
    List.Sorted orderLE r.exercises := by
  unfold postWorkout at h
  exact loadWorkoutRead_sorted _ _ r h

/-- C8: ordering invariant of responses — every workout representation
returned to a caller (the list fetch, the single fetch, and the reload
after a create, an update or a favorite toggle) carries its exercises
sorted ascending by the persisted `order` field. -/
theorem responses_sorted (db : DB) (i : String) (v : UpdateWorkoutRequest)
    (c : CreateWorkoutRequest) :
    (loadWorkoutRead db i).elim True (fun r => List.Sorted orderLE r.exercises) ∧
    List.Forall (fun r => List.Sorted orderLE r.exercises) (listWorkoutsRead db) ∧
    (match (putWorkout db i v).2 with
     | .ok r => List.Sorted orderLE r.exercises
     | .notFound => True
     | .errorResp _ => True) ∧
    ((patchFavorite db i).2).elim True (fun r => List.Sorted orderLE r.exercises) ∧
    ((postWorkout db c).2).elim True (fun r => List.Sorted orderLE r.exercises) := by
  refine ⟨?_, ?_, ?_, ?_, ?_⟩
  · cases hl : loadWorkoutRead db i with
    | none => exact trivial
    | some r => exact loadWorkoutRead_sorted db i r hl
  · rw [List.forall_iff_forall_mem]
    intro r hr
    unfold listWorkoutsRead at hr
    rw [List.mem_map] at hr
    obtain ⟨w, _, hw⟩ := hr
    rw [← hw]
    exact List.sorted_insertionSort orderLE _
  · cases hp : (putWorkout db i v).2 with
    | ok r => exact putWorkout_resp_sorted db i v r hp
    | notFound => exact trivial
    | errorResp m => exact trivial
  · cases hp : (patchFavorite db i).2 with
    | none => exact trivial
    | some r => exact patchFavorite_resp_sorted db i r hp
  · cases hp : (postWorkout db c).2 with
    | none => exact trivial
    | some r => exact postWorkout_resp_sorted db c r hp

/-! Favorite toggling. -/

theorem find?_update_map (l : List Workout) (i : String) (g : Workout → Workout)
    (hg : ∀ w, (g w).id = w.id) :
    (l.map (fun x => if x.id = i then g x else x)).find? (fun w => decide (w.id = i)) =
      (l.find? (fun w => decide (w.id = i))).map g := by
  induction l with
  | nil => rfl
  | cons x rest ih =>
      by_cases hx : x.id = i
      · have h1 : (fun w => decide (w.id = i)) (g x) = true := by simp [hg x, hx]
        have h2 : (fun w => decide (w.id = i)) x = true := by simp [hx]
        have e1 : List.find? (fun w => decide (w.id = i))
            (g x :: rest.map (fun x => if x.id = i then g x else x)) = some (g x) :=
          List.find?_cons_of_pos _ h1
        have e2 : List.find? (fun w => decide (w.id = i)) (x :: rest) = some x :=
          List.find?_cons_of_pos _ h2
        rw [List.map_cons, if_pos hx, e1, e2, Option.map_some']
      · have h1 : ¬((fun w => decide (w.id = i)) x = true) := by simp [hx]
        have e1 : List.find? (fun w => decide (w.id = i))
            (x :: rest.map (fun x => if x.id = i then g x else x)) =
            List.find? (fun w => decide (w.id = i))
              (rest.map (fun x => if x.id = i then g x else x)) :=
          List.find?_cons_of_neg _ h1
        have e2 : List.find? (fun w => decide (w.id = i)) (x :: rest) =
            List.find? (fun w => decide (w.id = i)) rest :=
          List.find?_cons_of_neg _ h1
        rw [List.map_cons, if_neg hx, e1, e2, ih]

/-- One favorite toggle flips the persisted flag of the targeted workout
and leaves it findable with the flipped value. -/
theorem patchFavorite_flips (db : DB) (i : String) (w : Workout)
    (hw : db.workouts.find? (fun x => decide (x.id = i)) = some w) :
    getIsFavorite (patchFavorite db i).1 i = some (!w.isFavorite) ∧
    ((patchFavorite db i).1).workouts.find? (fun x => decide (x.id = i)) =
      some { w with isFavorite := !w.isFavorite } := by
  have hfst : (patchFavorite db i).1 =
      { db with workouts := (db.workouts.map
        (fun x => if x.id = i then { x with isFavorite := !w.isFavorite } else x)) } := by
    unfold patchFavorite
    rw [hw]
  have hfind : ((patchFavorite db i).1).workouts.find? (fun x => decide (x.id = i)) =
      some { w with isFavorite := !w.isFavorite } := by
    rw [hfst]
    show (db.workouts.map _).find? _ = _
    rw [find?_update_map db.workouts i
      (fun x => { x with isFavorite := !w.isFavorite }) (fun _ => rfl), hw,
      Option.map_some']
  refine ⟨?_, hfind⟩
  unfold getIsFavorite
  rw [hfind, Option.map_some']

/-- C9: the favorite toggle is an involution — for every existing workout a
single PATCH negates `isFavorite` and two consecutive PATCH calls restore
its original value. -/
theorem favorite_toggle_involution (db : DB) (i : String) (b : Bool)
    (h : getIsFavorite db i = some b) :
    getIsFavorite (patchFavorite db i).1 i = some (!b) ∧
    getIsFavorite (patchFavorite (patchFavorite db i).1 i).1 i = some b := by
  unfold getIsFavorite at h
  rw [Option.map_eq_some'] at h
  obtain ⟨w, hw, hb⟩ := h
  obtain ⟨hg1, hf1⟩ := patchFavorite_flips db i w hw
  obtain ⟨hg2, _⟩ := patchFavorite_flips (patchFavorite db i).1 i
    { w with isFavorite := !w.isFavorite } hf1
  constructor
  · rw [hg1, hb]
  · rw [hg2]
    show some (!(!w.isFavorite)) = some b
    rw [Bool.not_not, hb]

theorem favorite_toggle_involution_witness :
    getIsFavorite (patchFavorite dbLegDay "w1").1 "w1" = some true ∧
    getIsFavorite (patchFavorite (patchFavorite dbLegDay "w1").1 "w1").1 "w1" =
      some false :=
  favorite_toggle_involution dbLegDay "w1" false rfl

/-- C10: a directive carrying `_action` create whose id matches an existing
exercise of the workout is dispatched as an in-place update — no new
exercise row is created, the row ids are unchanged by the dispatch and the
directive id is recorded as resolved — while its presence still counts as
replacement intent, so every unreferenced pre-existing exercise of the
workout is deleted by the same successful call. -/
theorem create_action_existing_id_updates (db : DB) (wid : String)
    (v : UpdateWorkoutRequest) (ds : List UpdateExerciseData)
    (d : UpdateExerciseData) (i : String) (e0 : Exercise)
    (hex : v.exercises = some ds) (hd : d ∈ ds)
    (hact : d._action = some "create") (hid : d.id = some i) (hne : i ≠ "")
    (hmatch : i ∈ (existingExercisesOf db wid).map (fun e => e.id))
    (he0 : e0 ∈ db.exercises) (hw0 : e0.workoutId = wid)
    (hunref : ∀ u ∈ ds, u.id ≠ some e0.id)
    (hput : ((putWorkout db wid v).2).isOk = true) :
    (∀ (store : List Exercise) (res : List String)
        (out : List Exercise × List String),
        applyDirective wid ((existingExercisesOf db wid).map (fun e => e.id))
          (store, res) d = .ok out →
        out.1.map (fun e => e.id) = store.map (fun e => e.id) ∧
        out.2 = i :: res) ∧
    e0.id ∉ (putWorkout db wid v).1.exercises.map (fun e => e.id) := by
  constructor
  · intro store res out hstep
    have htr : truthyId d.id = true := by
      rw [hid]
      exact truthyId_some i hne
    have hnd : ¬(d._action = some "delete" ∧ truthyId d.id = true) := by
      rintro ⟨ha, _⟩
      rw [hact] at ha
      simp at ha
    have hgd : d.id.getD "" = i := by rw [hid]; rfl
    have hin : d.id.getD "" ∈ ((existingExercisesOf db wid).map (fun e => e.id)) := by
      rw [hgd]
      exact hmatch
    rw [applyDirective_update_branch _ _ _ _ _ hnd htr hin] at hstep
    split at hstep
    · unfold exerciseUpdate at hstep
      split at hstep
      · simp only [Except.map] at hstep
        cases hstep
        constructor
        · show List.map (fun e => e.id)
            (store.map (fun e => if e.id = d.id.getD "" then applyUpdateData d e else e)) =
            store.map (fun e => e.id)
          rw [List.map_map]
          apply List.map_congr_left
          intro e _
          simp only [Function.comp]
          by_cases hc : e.id = d.id.getD ""
          · rw [if_pos hc, applyUpdateData_id]
          · rw [if_neg hc]
        · show d.id.getD "" :: res = i :: res
          rw [hgd]
      · simp [Except.map] at hstep
    · cases hstep
      refine ⟨rfl, ?_⟩
      show d.id.getD "" :: res = i :: res
      rw [hgd]
  · exact putWorkout_replacement_absent db wid v ds e0 hex ⟨d, hd, Or.inr hact⟩
      he0 hw0 hunref hput

/-- The create-action directive of the C10 witness, targeting the existing
exercise. -/
def dirCreateExisting : UpdateExerciseData :=
  { id := some "e1", name := some "Renamed", _action := some "create" }

/-- The update payload holding only the create-action directive. -/
def payCreateExisting : UpdateWorkoutRequest := { exercises := some [dirCreateExisting] }

theorem create_action_existing_id_updates_witness :
    ([{ exSquats with name := "Renamed" }, exLunges].map (fun e => e.id) =
        [exSquats, exLunges].map (fun e => e.id) ∧
      (["e1"] : List String) = "e1" :: []) ∧
    exLunges.id ∉
      (putWorkout dbLegDay "w1" payCreateExisting).1.exercises.map (fun e => e.id) := by
  have h := create_action_existing_id_updates dbLegDay "w1" payCreateExisting
    [dirCreateExisting] dirCreateExisting "e1" exLunges rfl (by decide) rfl rfl
    (by decide) (by decide) (by decide) (by decide) (by decide) (by decide)
  exact ⟨h.1 [exSquats, exLunges] []
    ([{ exSquats with name := "Renamed" }, exLunges], ["e1"]) (by rfl), h.2⟩

end GymBuddy
